import Mathlib

/-!
Shallow embedding of the cycle-analysis engine of `analyze_cycles.py`
(tarkov-crafts): the crafting graph built from parsed recipe records, the
DFS cycle finder with normalization and deduplication, the per-cycle
analyzer (duration aggregation, consumption, production, net balance,
self-sustaining classification) and the report sorting policy.

Python dicts keyed by item name are modelled either as total functions
`String → List Nat` (the `defaultdict(list)` indexes, whose missing keys
yield `[]`) or as association lists in insertion order (the per-analysis
quantity maps).  Python integers are `Int`; the `avg` duration mode divides
by two, so aggregated scalar durations live in `ℚ`.
-/

namespace TarkovCrafts

/-- A recipe input reference: `{name, quantity, consumable}`.  A missing
`consumable` key defaults to `True` in the source (`item.get('consumable',
True)`); records here carry the resolved boolean. -/
structure InputItem where
  name : String
  quantity : Int
  consumable : Bool
  deriving DecidableEq, Repr

/-- A recipe output reference: `{name, quantity}`. -/
structure OutputItem where
  name : String
  quantity : Int
  deriving DecidableEq, Repr

/-- A recipe duration: either a scalar number of seconds or a
`{min, max}` range. -/
inductive Duration where
  | scalar (v : Int)
  | range (lo hi : Int)
  deriving DecidableEq, Repr

instance : Inhabited Duration := ⟨Duration.scalar 0⟩

/-- A raw recipe record as it appears in the YAML data.  `duration` is
optional (`recipe.get('duration', 0)`); a missing field is `none`.
`requirements` likewise defaults to the empty list, which we represent
directly. -/
structure RecipeRecord where
  inputs : List InputItem
  output : OutputItem
  duration : Option Duration
  requirements : List String
  deriving DecidableEq, Repr

/-- The in-graph recipe object built by `CraftingGraph._build_graph`. -/
structure Recipe where
  id : Nat
  station : String
  level : Nat
  inputs : List InputItem
  output : OutputItem
  duration : Duration
  requirements : List String
  deriving DecidableEq, Repr

instance : Inhabited Recipe :=
  ⟨{ id := 0, station := "", level := 0, inputs := [], output := ⟨"", 0⟩,
     duration := default, requirements := [] }⟩

/-- One level of a station: `{'recipes': [...]}`. -/
structure LevelData where
  recipes : List RecipeRecord
  deriving DecidableEq, Repr

/-- One station: `{'levels': {level: level_data}}`, the dict modelled as an
association list in insertion order. -/
structure StationData where
  levels : List (Nat × LevelData)
  deriving DecidableEq, Repr

/-- The whole YAML document: station name → station data, in insertion
order. -/
abbrev RecipesData := List (String × StationData)

/-- The crafting graph.  `item_to_producers` and `item_to_consumers` are
`defaultdict(list)` in the source: modelled as total functions returning
`[]` for unknown names. -/
structure CraftingGraph where
  recipes : List Recipe
  item_to_producers : String → List Nat
  item_to_consumers : String → List Nat

/-- `recipe_id_map[recipe_id]`.  Recipe ids are assigned sequentially, so
the map is recovered by searching `recipes`; ids reachable during a run
are always present, the default is never hit on those. -/
def CraftingGraph.recipe_id_map (g : CraftingGraph) (recipe_id : Nat) : Recipe :=
  (g.recipes.find? (fun r => r.id == recipe_id)).getD default

/-- The recipe object assembled for one record at `_build_graph`:
`duration` defaults to the scalar `0` when the record has none. -/
def recipe_obj (recipe_id : Nat) (station_name : String) (level : Nat)
    (rec : RecipeRecord) : Recipe :=
  { id := recipe_id
    station := station_name
    level := level
    inputs := rec.inputs
    output := rec.output
    duration := rec.duration.getD (Duration.scalar 0)
    requirements := rec.requirements }

/-- The consumer-index loop of `_build_graph`: for every input of the
recipe, skip non-consumable tools, otherwise append the recipe id to the
bucket of that input's name (one append per occurrence). -/
def appendConsumers (recipe_id : Nat) (inputs : List InputItem)
    (consumers : String → List Nat) : String → List Nat :=
  inputs.foldl
    (fun consumers input_item =>
      if input_item.consumable then
        fun k => if k = input_item.name then consumers k ++ [recipe_id] else consumers k
      else consumers)
    consumers

/-- Processing of a single recipe record inside `_build_graph`: append the
recipe object, index its output in `item_to_producers`, index its
consumable inputs in `item_to_consumers`. -/
def addRecipe (g : CraftingGraph) (recipe_id : Nat) (station_name : String)
    (level : Nat) (rec : RecipeRecord) : CraftingGraph :=
  let robj := recipe_obj recipe_id station_name level rec
  let output_name := rec.output.name
  { recipes := g.recipes ++ [robj]
    item_to_producers := fun k =>
      if k = output_name then g.item_to_producers k ++ [recipe_id]
      else g.item_to_producers k
    item_to_consumers := appendConsumers recipe_id rec.inputs g.item_to_consumers }

/-- One step of the build fold, threading the `recipe_id` counter (which
the source increments once per recipe). -/
def buildStep (s : CraftingGraph × Nat) (station_name : String) (level : Nat)
    (rec : RecipeRecord) : CraftingGraph × Nat :=
  (addRecipe s.1 s.2 station_name level rec, s.2 + 1)

/-- The empty graph: `recipes = []`, both indexes empty. -/
def emptyGraph : CraftingGraph :=
  { recipes := [], item_to_producers := fun _ => [], item_to_consumers := fun _ => [] }

/-- `CraftingGraph._build_graph`: iterate stations, levels and recipes in
input order, assigning sequential ids. -/
def buildGraph (recipes_data : RecipesData) : CraftingGraph :=
  (recipes_data.foldl
    (fun s station =>
      station.2.levels.foldl
        (fun s level_data =>
          level_data.2.recipes.foldl
            (fun s rec => buildStep s station.1 level_data.1 rec) s)
        s)
    (emptyGraph, 0)).1

/-- The triple-nested iteration of `_build_graph`, flattened to the list of
(station name, level, record) triples in processing order. -/
def flattenData (recipes_data : RecipesData) : List (String × Nat × RecipeRecord) :=
  recipes_data.flatMap (fun station =>
    station.2.levels.flatMap (fun level_data =>
      level_data.2.recipes.map (fun rec => (station.1, level_data.1, rec))))

/-- Invariant of the build fold: the id counter equals the number of
recipes, every indexed id is a previously assigned one, and each recipe's
id occurs once in its output's producers bucket (nowhere else) and once
per matching consumable input occurrence in each consumers bucket. -/
structure BuildInv (s : CraftingGraph × Nat) : Prop where
  len_eq : s.2 = s.1.recipes.length
  id_lt : ∀ r ∈ s.1.recipes, r.id < s.2
  producers_lt : ∀ k i, i ∈ s.1.item_to_producers k → i < s.2
  consumers_lt : ∀ k i, i ∈ s.1.item_to_consumers k → i < s.2
  producers_count : ∀ r ∈ s.1.recipes, ∀ k,
    (s.1.item_to_producers k).count r.id = if k = r.output.name then 1 else 0
  consumers_count : ∀ r ∈ s.1.recipes, ∀ k,
    (s.1.item_to_consumers k).count r.id =
      r.inputs.countP (fun it => it.consumable && it.name == k)

/-- Python `min(cycle)` for a nonempty list (the `[]` value is never used
by the source, which only takes minima of nonempty cycles). -/
def listMin : List Nat → Nat
  | [] => 0
  | x :: xs => xs.foldl min x

/-- Cycle normalization from `find_all_cycles`: rotate the cycle so that
its minimum recipe id comes first (`cycle[min_idx:] + cycle[:min_idx]`). -/
def normalizeCycle (cycle : List Nat) : List Nat :=
  let min_idx := List.indexOf (listMin cycle) cycle
  cycle.drop min_idx ++ cycle.take min_idx

/-- The recursive `dfs` of `find_all_cycles`, with an explicit fuel
argument standing for the call stack (the top-level call passes
`max_length + 1`, which the recursion never exhausts since the path grows
on every recursive call and is capped at `max_length`).

The source's shared `visited_in_path` set always equals the set of nodes
of the current `path` (each frame adds its node before recursing and
removes it after), and is checked only after the `recipe_id in path`
branch has returned, so the membership test it performs is always false
and only the `len(path) >= max_length` part of that guard remains. -/
def dfs (g : CraftingGraph) (max_length min_length : Nat) :
    Nat → Nat → List Nat → List (List Nat) → List (List Nat)
  | 0, _, _, cycles => cycles
  | fuel + 1, recipe_id, path, cycles =>
    if recipe_id ∈ path then
      let cycle_start_idx := List.indexOf recipe_id path
      let cycle := path.drop cycle_start_idx
      if cycle.length < min_length then cycles
      else
        let normalized := normalizeCycle cycle
        if normalized ∈ cycles then cycles else cycles ++ [normalized]
    else if path.length ≥ max_length then cycles
    else
      let recipe := g.recipe_id_map recipe_id
      let output_name := recipe.output.name
      (g.item_to_consumers output_name).foldl
        (fun cs next_recipe_id =>
          dfs g max_length min_length fuel next_recipe_id (path ++ [recipe_id]) cs)
        cycles

/-- `CraftingGraph.find_all_cycles(max_length, min_length)`: run the DFS
from every recipe id in ascending order, accumulating normalized cycles
without duplicates. -/
def find_all_cycles (g : CraftingGraph) (max_length : Nat := 10)
    (min_length : Nat := 2) : List (List Nat) :=
  (List.range g.recipes.length).foldl
    (fun cycles recipe_id =>
      dfs g max_length min_length (max_length + 1) recipe_id [] cycles)
    []

/-- Modelled from the spec: the `find_cycles` contract of §4.2/§7, which
demands `1 ≤ min_length ≤ max_length` and a `ConfigurationError` rejection
before any traversal begins.  No such validation or error type exists
anywhere in the source; this definition follows the spec's words so the
divergence can be stated. -/
def find_cycles_spec (g : CraftingGraph) (min_length max_length : Nat) :
    Except String (List (List Nat)) :=
  if min_length > max_length ∨ min_length = 0 ∨ max_length = 0 then
    Except.error "ConfigurationError"
  else Except.ok (find_all_cycles g max_length min_length)

/-- The aggregated duration of a cycle: `_calculate_duration` returns
either a number (scalar modes, or `range` mode over all-scalar recipes) or
a `{min, max}` dict.  Scalars live in `ℚ` because the `avg` mode divides
by two. -/
inductive DurationTotal where
  | scalar (v : ℚ)
  | range (lo hi : Int)
  deriving DecidableEq, Repr

/-- Loop body of the `range` branch of `_calculate_duration`: accumulate
`(total_min, total_max, has_range)`. -/
def range_step (acc : Int × Int × Bool) (r : Recipe) : Int × Int × Bool :=
  match r.duration with
  | Duration.scalar v => (acc.1 + v, acc.2.1 + v, acc.2.2)
  | Duration.range lo hi => (acc.1 + lo, acc.2.1 + hi, true)

/-- Loop body of the `avg` branch: ranges contribute `(min + max) / 2`
(Python float division, modelled in `ℚ`), scalars their own value. -/
def avg_step (total : ℚ) (r : Recipe) : ℚ :=
  match r.duration with
  | Duration.scalar v => total + v
  | Duration.range lo hi => total + ((lo : ℚ) + hi) / 2

/-- Loop body of the `min` branch: `duration['min']` for ranges. -/
def min_step (total : Int) (r : Recipe) : Int :=
  match r.duration with
  | Duration.scalar v => total + v
  | Duration.range lo _ => total + lo

/-- Loop body of the `max` branch: `duration['max']` for ranges. -/
def max_step (total : Int) (r : Recipe) : Int :=
  match r.duration with
  | Duration.scalar v => total + v
  | Duration.range _ hi => total + hi

/-- `CycleAnalysis._calculate_duration`, dispatching on
`config['duration_mode']`; any unrecognized mode falls through to `0`. -/
def calculate_duration (mode : String) (recipes : List Recipe) : DurationTotal :=
  if mode = "range" then
    let acc := recipes.foldl range_step (0, 0, false)
    if acc.2.2 then DurationTotal.range acc.1 acc.2.1 else DurationTotal.scalar acc.1
  else if mode = "avg" then
    DurationTotal.scalar (recipes.foldl avg_step 0)
  else if mode = "min" then
    DurationTotal.scalar ((recipes.foldl min_step 0 : Int) : ℚ)
  else if mode = "max" then
    DurationTotal.scalar ((recipes.foldl max_step 0 : Int) : ℚ)
  else DurationTotal.scalar 0

/-- A Python dict from item name to quantity, in insertion order. -/
abbrev ItemMap := List (String × Int)

/-- `defaultdict(int)` update `m[name] += qty`: a missing key reads as `0`
and is inserted at the end. -/
def addQty (m : ItemMap) (name : String) (qty : Int) : ItemMap :=
  if m.any (fun p => p.1 == name) then
    m.map (fun p => if p.1 = name then (p.1, p.2 + qty) else p)
  else m ++ [(name, qty)]

/-- `m.get(name, d)`. -/
def getQty (m : ItemMap) (name : String) (d : Int) : Int :=
  ((m.find? (fun p => p.1 == name)).map Prod.snd).getD d

/-- `CycleAnalysis._calculate_inputs`: total consumable consumption per
item name over the cycle's recipes. -/
def calculate_inputs (recipes : List Recipe) : ItemMap :=
  recipes.foldl
    (fun m r =>
      r.inputs.foldl
        (fun m item =>
          if item.consumable then addQty m item.name item.quantity else m)
        m)
    []

/-- `CycleAnalysis._calculate_outputs`: total production per item name. -/
def calculate_outputs (recipes : List Recipe) : ItemMap :=
  recipes.foldl (fun m r => addQty m r.output.name r.output.quantity) []

/-- `CycleAnalysis._calculate_balance`: `produced - consumed` over the
union of item names, dropping zero entries.  The source iterates a Python
set whose order is unspecified; we fix first-seen order, and every claim
about the balance depends only on the name → value mapping. -/
def calculate_balance (inputs_consumed outputs_produced : ItemMap) : ItemMap :=
  let all_items := (inputs_consumed.map Prod.fst ++ outputs_produced.map Prod.fst).eraseDups
  all_items.foldl
    (fun balance item =>
      let consumed := getQty inputs_consumed item 0
      let produced := getQty outputs_produced item 0
      let net := produced - consumed
      if net ≠ 0 then balance ++ [(item, net)] else balance)
    []

/-- The loop of `_check_self_sustaining`: return `False` on the first
negative balance, remember whether any balance is positive. -/
def check_self_sustaining_loop (has_profit : Bool) : ItemMap → Bool
  | [] => has_profit
  | (_, balance) :: rest =>
    if balance < 0 then false
    else check_self_sustaining_loop (has_profit || decide (balance > 0)) rest

/-- `CycleAnalysis._check_self_sustaining`. -/
def check_self_sustaining (net_balance : ItemMap) : Bool :=
  check_self_sustaining_loop false net_balance

/-- The `CycleAnalysis` record: all fields computed once at
construction. -/
structure CycleAnalysis where
  cycle : List Nat
  total_duration : DurationTotal
  inputs_consumed : ItemMap
  outputs_produced : ItemMap
  net_balance : ItemMap
  is_self_sustaining : Bool
  deriving DecidableEq, Repr

/-- `CycleAnalysis.__init__`: resolve the cycle's recipes through the
graph, then compute duration, consumption, production, balance and the
self-sustaining flag.  `mode` is `config.get('duration_mode', 'range')`. -/
def mkCycleAnalysis (cycle : List Nat) (g : CraftingGraph) (mode : String) :
    CycleAnalysis :=
  let recipes := cycle.map g.recipe_id_map
  let inputs_consumed := calculate_inputs recipes
  let outputs_produced := calculate_outputs recipes
  let net_balance := calculate_balance inputs_consumed outputs_produced
  { cycle := cycle
    total_duration := calculate_duration mode recipes
    inputs_consumed := inputs_consumed
    outputs_produced := outputs_produced
    net_balance := net_balance
    is_self_sustaining := check_self_sustaining net_balance }

/-- The sort key of `main` for `--sort self_sustaining`:
`(-a.is_self_sustaining, -len(a.cycle))`, compared lexicographically and
ascending (Python tuple order). -/
def sustainKey (a : CycleAnalysis) : Int × Int :=
  (-(if a.is_self_sustaining then 1 else 0), -(a.cycle.length : Int))

/-- Lexicographic ≤ on Python pairs of integers. -/
def keyLE (a b : Int × Int) : Bool :=
  decide (a.1 < b.1 ∨ (a.1 = b.1 ∧ a.2 ≤ b.2))

/-- `analyses.sort(key=...)` for the `self_sustaining` sort key: Python's
sort is stable and ascending on the key, modelled by a stable merge
sort. -/
def sort_analyses (analyses : List CycleAnalysis) : List CycleAnalysis :=
  analyses.mergeSort (fun a b => keyLE (sustainKey a) (sustainKey b))

/-- Spec-side helper: is a duration a plain scalar? -/
def Duration.isScalar : Duration → Bool
  | Duration.scalar _ => true
  | Duration.range _ _ => false

/-- Spec-side helper: a duration's minimum (a scalar is its own min). -/
def Duration.lower : Duration → Int
  | Duration.scalar v => v
  | Duration.range lo _ => lo

/-- Spec-side helper: a duration's maximum (a scalar is its own max). -/
def Duration.upper : Duration → Int
  | Duration.scalar v => v
  | Duration.range _ hi => hi

/-- Spec-side helper: sum of all recipes' duration minimums. -/
def sumLower (recipes : List Recipe) : Int :=
  (recipes.map (fun r => r.duration.lower)).sum

/-- Spec-side helper: sum of all recipes' duration maximums. -/
def sumUpper (recipes : List Recipe) : Int :=
  (recipes.map (fun r => r.duration.upper)).sum

/-- Scenario A of the spec: R1 produces Wire (qty 2) from nothing, R2
consumes Wire (qty 1, consumable) and produces Wire (qty 3). -/
def scenarioARecord1 : RecipeRecord :=
  { inputs := [], output := ⟨"Wire", 2⟩, duration := none, requirements := [] }

def scenarioARecord2 : RecipeRecord :=
  { inputs := [⟨"Wire", 1, true⟩], output := ⟨"Wire", 3⟩,
    duration := none, requirements := [] }

def scenarioAData : RecipesData :=
  [("Workbench", ⟨[(1, ⟨[scenarioARecord1, scenarioARecord2]⟩)]⟩)]

def scenarioAGraph : CraftingGraph := buildGraph scenarioAData

/-- A record listing the same consumable input name twice, for the
consumer-index deduplication question. -/
def dupInputRecord : RecipeRecord :=
  { inputs := [⟨"Wire", 1, true⟩, ⟨"Wire", 2, true⟩],
    output := ⟨"Plate", 1⟩, duration := none, requirements := [] }

def dupInputData : RecipesData :=
  [("Workbench", ⟨[(1, ⟨[dupInputRecord]⟩)]⟩)]

def dupInputGraph : CraftingGraph := buildGraph dupInputData

/-- Scenario D recipes: one `{min: 10, max: 20}` range, one scalar 30. -/
def scenarioDRecipe1 : Recipe :=
  { id := 0, station := "Workbench", level := 1, inputs := [],
    output := ⟨"Gear", 1⟩, duration := Duration.range 10 20, requirements := [] }

def scenarioDRecipe2 : Recipe :=
  { id := 1, station := "Workbench", level := 1, inputs := [],
    output := ⟨"Bolt", 1⟩, duration := Duration.scalar 30, requirements := [] }

/-! ## Helper lemmas -/

theorem check_self_sustaining_loop_iff (l : ItemMap) :
    ∀ b, check_self_sustaining_loop b l = true ↔
      (∀ p ∈ l, 0 ≤ p.2) ∧ (b = true ∨ ∃ p ∈ l, 0 < p.2) := by
  induction l with
  | nil => intro b; simp [check_self_sustaining_loop]
  | cons hd rest ih =>
    intro b
    obtain ⟨nm, bal⟩ := hd
    by_cases hb : bal < 0
    · simp only [check_self_sustaining_loop, if_pos hb]
      constructor
      · intro h; exact absurd h (by simp)
      · rintro ⟨h1, -⟩
        have := h1 (nm, bal) (List.mem_cons_self _ _)
        omega
    · have h0 : 0 ≤ bal := by omega
      simp only [check_self_sustaining_loop, if_neg hb, ih,
        List.forall_mem_cons, List.exists_mem_cons_iff, Bool.or_eq_true,
        decide_eq_true_iff]
      constructor
      · rintro ⟨hall, hex⟩
        refine ⟨⟨h0, hall⟩, ?_⟩
        rcases hex with (hb' | hpos) | hex
        · exact Or.inl hb'
        · exact Or.inr (Or.inl hpos)
        · exact Or.inr (Or.inr hex)
      · rintro ⟨⟨-, hall⟩, hex⟩
        refine ⟨hall, ?_⟩
        rcases hex with hb' | hpos | hex
        · exact Or.inl (Or.inl hb')
        · exact Or.inl (Or.inr hpos)
        · exact Or.inr hex

theorem foldl_range_step (recipes : List Recipe) :
    ∀ a b fl, recipes.foldl range_step (a, b, fl) =
      (a + sumLower recipes, b + sumUpper recipes,
        fl || recipes.any (fun r => !r.duration.isScalar)) := by
  induction recipes with
  | nil => intro a b fl; simp [sumLower, sumUpper]
  | cons r rest ih =>
    intro a b fl
    rw [List.foldl_cons]
    cases hd : r.duration with
    | scalar v =>
      simp only [range_step, hd, ih, sumLower, sumUpper, List.map_cons,
        List.sum_cons, List.any_cons, Duration.lower, Duration.upper,
        Duration.isScalar, Bool.not_true, Bool.false_or]
      refine congrArg₂ _ (by omega) (congrArg₂ _ (by omega) rfl)
    | range lo hi =>
      simp only [range_step, hd, ih, sumLower, sumUpper, List.map_cons,
        List.sum_cons, List.any_cons, Duration.lower, Duration.upper,
        Duration.isScalar, Bool.not_false, Bool.true_or, Bool.or_true]
      refine congrArg₂ _ (by omega) (congrArg₂ _ (by omega) rfl)

theorem appendConsumers_apply (recipe_id : Nat) :
    ∀ (inputs : List InputItem) (consumers : String → List Nat) (k : String),
      appendConsumers recipe_id inputs consumers k =
        consumers k ++ List.replicate
          (inputs.countP (fun it => it.consumable && it.name == k)) recipe_id := by
  intro inputs
  induction inputs with
  | nil => intro f k; simp [appendConsumers]
  | cons it rest ih =>
    intro f k
    show appendConsumers recipe_id rest
        (if it.consumable then
          (fun k' => if k' = it.name then f k' ++ [recipe_id] else f k')
        else f) k = _
    rw [ih, List.countP_cons]
    by_cases hc : it.consumable
    · by_cases hk : k = it.name
      · have hp : (it.consumable && (it.name == k)) = true := by simp [hc, hk]
        simp [hc, hk, hp, List.replicate_succ]
      · have hk' : ¬ it.name = k := fun h2 => hk h2.symm
        have hp : (it.consumable && (it.name == k)) = false := by
          have hne : (it.name == k) = false := beq_eq_false_iff_ne.mpr hk'
          simp [hne]
        simp [hc, hk, hk', hp]
    · have hp : (it.consumable && (it.name == k)) = false := by simp [hc]
      simp [hc, hp]

theorem buildInv_empty : BuildInv (emptyGraph, 0) := by
  constructor <;> simp [emptyGraph]

theorem buildInv_step (g : CraftingGraph) (n : Nat) (st : String) (lvl : Nat)
    (rec : RecipeRecord) (h : BuildInv (g, n)) :
    BuildInv (buildStep (g, n) st lvl rec) := by
  have hrecipes : (addRecipe g n st lvl rec).recipes =
      g.recipes ++ [recipe_obj n st lvl rec] := rfl
  have hprod : ∀ k, (addRecipe g n st lvl rec).item_to_producers k =
      if k = rec.output.name then g.item_to_producers k ++ [n]
      else g.item_to_producers k := fun _ => rfl
  have hcons : ∀ k, (addRecipe g n st lvl rec).item_to_consumers k =
      g.item_to_consumers k ++
        List.replicate (rec.inputs.countP (fun it => it.consumable && it.name == k)) n :=
    fun k => appendConsumers_apply n rec.inputs g.item_to_consumers k
  constructor
  · show n + 1 = (addRecipe g n st lvl rec).recipes.length
    rw [hrecipes, List.length_append, ← h.len_eq]
    rfl
  · show ∀ r ∈ (addRecipe g n st lvl rec).recipes, r.id < n + 1
    intro r hr
    rw [hrecipes] at hr
    rcases List.mem_append.mp hr with hr | hr
    · have := h.id_lt r hr
      omega
    · rw [List.mem_singleton.mp hr]
      exact Nat.lt_succ_self n
  · show ∀ k i, i ∈ (addRecipe g n st lvl rec).item_to_producers k → i < n + 1
    intro k i hi
    rw [hprod] at hi
    by_cases hk : k = rec.output.name
    · rw [if_pos hk] at hi
      rcases List.mem_append.mp hi with hi | hi
      · have := h.producers_lt k i hi
        omega
      · rw [List.mem_singleton.mp hi]
        exact Nat.lt_succ_self n
    · rw [if_neg hk] at hi
      have := h.producers_lt k i hi
      omega
  · show ∀ k i, i ∈ (addRecipe g n st lvl rec).item_to_consumers k → i < n + 1
    intro k i hi
    rw [hcons] at hi
    rcases List.mem_append.mp hi with hi | hi
    · have := h.consumers_lt k i hi
      omega
    · rw [(List.mem_replicate.mp hi).2]
      exact Nat.lt_succ_self n
  · show ∀ r ∈ (addRecipe g n st lvl rec).recipes, ∀ k,
        ((addRecipe g n st lvl rec).item_to_producers k).count r.id =
          if k = r.output.name then 1 else 0
    intro r hr k
    rw [hrecipes] at hr
    rw [hprod]
    rcases List.mem_append.mp hr with hr | hr
    · have hid : r.id < n := h.id_lt r hr
      by_cases hk : k = rec.output.name
      · rw [if_pos hk, List.count_append, List.count_singleton,
          if_neg (by simp; omega), Nat.add_zero]
        exact h.producers_count r hr k
      · rw [if_neg hk]
        exact h.producers_count r hr k
    · rw [List.mem_singleton.mp hr]
      have hzero : ∀ k', (g.item_to_producers k').count n = 0 := fun k' =>
        List.count_eq_zero.mpr (fun hmem => absurd (h.producers_lt k' n hmem) (by omega))
      have hid : (recipe_obj n st lvl rec).id = n := rfl
      have hout : (recipe_obj n st lvl rec).output.name = rec.output.name := rfl
      rw [hid, hout]
      by_cases hk : k = rec.output.name
      · rw [if_pos hk, if_pos hk, List.count_append, List.count_singleton, hzero k]
        simp
      · rw [if_neg hk, if_neg hk, hzero k]
  · show ∀ r ∈ (addRecipe g n st lvl rec).recipes, ∀ k,
        ((addRecipe g n st lvl rec).item_to_consumers k).count r.id =
          r.inputs.countP (fun it => it.consumable && it.name == k)
    intro r hr k
    rw [hrecipes] at hr
    rw [hcons]
    rcases List.mem_append.mp hr with hr | hr
    · have hid : r.id < n := h.id_lt r hr
      rw [List.count_append, List.count_replicate, if_neg (by simp; omega),
        Nat.add_zero]
      exact h.consumers_count r hr k
    · rw [List.mem_singleton.mp hr]
      have hzero : (g.item_to_consumers k).count n = 0 :=
        List.count_eq_zero.mpr (fun hmem => absurd (h.consumers_lt k n hmem) (by omega))
      have hid : (recipe_obj n st lvl rec).id = n := rfl
      have hinputs : (recipe_obj n st lvl rec).inputs = rec.inputs := rfl
      rw [hid, hinputs, List.count_append, List.count_replicate, hzero]
      simp

theorem buildInv_foldl :
    ∀ (L : List (String × Nat × RecipeRecord)) (s : CraftingGraph × Nat),
      BuildInv s →
      BuildInv (L.foldl (fun s t => buildStep s t.1 t.2.1 t.2.2) s) := by
  intro L
  induction L with
  | nil => intro s h; exact h
  | cons t rest ih =>
    intro s h
    rw [List.foldl_cons]
    exact ih _ (buildInv_step s.1 s.2 t.1 t.2.1 t.2.2 h)

theorem recipes_foldl_eq (station_name : String) (level : Nat)
    (recipes : List RecipeRecord) (s : CraftingGraph × Nat) :
    recipes.foldl (fun s rec => buildStep s station_name level rec) s =
      (recipes.map (fun rec => (station_name, level, rec))).foldl
        (fun s t => buildStep s t.1 t.2.1 t.2.2) s := by
  rw [List.foldl_map]

theorem levels_foldl_eq (station_name : String) :
    ∀ (levels : List (Nat × LevelData)) (s : CraftingGraph × Nat),
      levels.foldl
          (fun s level_data =>
            level_data.2.recipes.foldl
              (fun s rec => buildStep s station_name level_data.1 rec) s)
          s =
        (levels.flatMap (fun level_data =>
            level_data.2.recipes.map (fun rec => (station_name, level_data.1, rec)))).foldl
          (fun s t => buildStep s t.1 t.2.1 t.2.2) s := by
  intro levels
  induction levels with
  | nil => intro s; rfl
  | cons ld rest ih =>
    intro s
    rw [List.foldl_cons, List.flatMap_cons, List.foldl_append, recipes_foldl_eq, ih]

theorem buildGraph_eq_foldl (recipes_data : RecipesData) :
    buildGraph recipes_data =
      ((flattenData recipes_data).foldl
        (fun s t => buildStep s t.1 t.2.1 t.2.2) (emptyGraph, 0)).1 := by
  rw [buildGraph, flattenData]
  congr 1
  generalize (emptyGraph, 0) = s
  induction recipes_data generalizing s with
  | nil => rfl
  | cons station rest ih =>
    rw [List.foldl_cons, List.flatMap_cons, List.foldl_append, levels_foldl_eq, ih]

theorem foldl_mem_cycles {α : Type} (f : List (List Nat) → α → List (List Nat))
    (Q : List Nat → Prop) (hf : ∀ acc x c, c ∈ f acc x → c ∈ acc ∨ Q c) :
    ∀ (l : List α) (init : List (List Nat)) (c : List Nat),
      c ∈ l.foldl f init → c ∈ init ∨ Q c := by
  intro l
  induction l with
  | nil => intro init c h; exact Or.inl h
  | cons x rest ih =>
    intro init c h
    rw [List.foldl_cons] at h
    rcases ih (f init x) c h with h' | hq
    · exact hf init x c h'
    · exact Or.inr hq

theorem normalizeCycle_length (c : List Nat) :
    (normalizeCycle c).length = c.length := by
  simp only [normalizeCycle, List.length_append, List.length_drop, List.length_take]
  omega

theorem dfs_mem (g : CraftingGraph) (maxL minL : Nat) :
    ∀ (fuel recipe_id : Nat) (path : List Nat) (cycles : List (List Nat)) (c : List Nat),
      path.length ≤ maxL → c ∈ dfs g maxL minL fuel recipe_id path cycles →
      c ∈ cycles ∨ (minL ≤ c.length ∧ c.length ≤ maxL ∧ 1 ≤ c.length) := by
  intro fuel
  induction fuel with
  | zero => intro rid path cycles c _ h; exact Or.inl h
  | succ fuel ih =>
    intro rid path cycles c hp h
    simp only [dfs] at h
    split_ifs at h with hin hshort hdup hlen
    · exact Or.inl h
    · exact Or.inl h
    · rcases List.mem_append.mp h with h' | h'
      · exact Or.inl h'
      · have hc : c = normalizeCycle (path.drop (List.indexOf rid path)) :=
          List.mem_singleton.mp h'
        have hidx : List.indexOf rid path < path.length :=
          List.indexOf_lt_length.mpr hin
        have hlenc : c.length = path.length - List.indexOf rid path := by
          rw [hc, normalizeCycle_length, List.length_drop]
        have hge : ¬ (path.drop (List.indexOf rid path)).length < minL := hshort
        rw [List.length_drop] at hge
        exact Or.inr ⟨by omega, by omega, by omega⟩
    · exact Or.inl h
    · have hp' : (path ++ [rid]).length ≤ maxL := by
        rw [List.length_append]
        simp only [List.length_singleton]
        omega
      exact foldl_mem_cycles _ _
        (fun acc x c' hc' => ih x (path ++ [rid]) acc c' hp' hc') _ cycles c h

theorem find_all_cycles_mem (g : CraftingGraph) (maxL minL : Nat) (c : List Nat)
    (h : c ∈ find_all_cycles g maxL minL) :
    minL ≤ c.length ∧ c.length ≤ maxL ∧ 1 ≤ c.length := by
  rw [find_all_cycles] at h
  rcases foldl_mem_cycles _ _
      (fun acc x c' hc' => dfs_mem g maxL minL (maxL + 1) x [] acc c' (by simp) hc')
      (List.range g.recipes.length) [] c h with h' | hq
  · exact absurd h' (List.not_mem_nil c)
  · exact hq

theorem foldl_min_le_init : ∀ (xs : List Nat) (a : Nat), xs.foldl min a ≤ a := by
  intro xs
  induction xs with
  | nil => intro a; exact le_refl a
  | cons x rest ih =>
    intro a
    rw [List.foldl_cons]
    exact le_trans (ih (min a x)) (min_le_left a x)

theorem foldl_min_le_mem : ∀ (xs : List Nat) (a x : Nat), x ∈ xs → xs.foldl min a ≤ x := by
  intro xs
  induction xs with
  | nil => intro a x hx; exact absurd hx (List.not_mem_nil x)
  | cons y rest ih =>
    intro a x hx
    rw [List.foldl_cons]
    rcases List.mem_cons.mp hx with h | h
    · subst h
      exact le_trans (foldl_min_le_init rest (min a x)) (min_le_right a x)
    · exact ih (min a y) x h

theorem foldl_min_mem : ∀ (xs : List Nat) (a : Nat),
    xs.foldl min a = a ∨ xs.foldl min a ∈ xs := by
  intro xs
  induction xs with
  | nil => intro a; exact Or.inl rfl
  | cons y rest ih =>
    intro a
    rw [List.foldl_cons]
    rcases ih (min a y) with h | h
    · rcases le_total a y with hay | hya
      · rw [h, min_eq_left hay]
        exact Or.inl rfl
      · rw [h, min_eq_right hya]
        exact Or.inr (List.mem_cons_self y rest)
    · exact Or.inr (List.mem_cons_of_mem y h)

theorem listMin_mem (c : List Nat) (h : c ≠ []) : listMin c ∈ c := by
  cases c with
  | nil => exact absurd rfl h
  | cons x xs =>
    rcases foldl_min_mem xs x with h' | h'
    · rw [listMin, h']
      exact List.mem_cons_self x xs
    · exact List.mem_cons_of_mem x h'

theorem listMin_le (c : List Nat) (x : Nat) (hx : x ∈ c) : listMin c ≤ x := by
  cases c with
  | nil => exact absurd hx (List.not_mem_nil x)
  | cons y ys =>
    rcases List.mem_cons.mp hx with h | h
    · rw [listMin, h]
      exact foldl_min_le_init ys y
    · exact foldl_min_le_mem ys y x h

theorem listMin_perm (c d : List Nat) (hp : c.Perm d) (hc : c ≠ []) :
    listMin c = listMin d := by
  have hd : d ≠ [] := by
    intro h
    subst h
    exact hc hp.eq_nil
  refine le_antisymm ?_ ?_
  · exact listMin_le c (listMin d) (hp.mem_iff.mpr (listMin_mem d hd))
  · exact listMin_le d (listMin c) (hp.mem_iff.mp (listMin_mem c hc))

theorem normalizeCycle_eq_rotate (c : List Nat) (h : c ≠ []) :
    normalizeCycle c = c.rotate (List.indexOf (listMin c) c) := by
  have hidx : List.indexOf (listMin c) c < c.length :=
    List.indexOf_lt_length.mpr (listMin_mem c h)
  show c.drop (List.indexOf (listMin c) c) ++ c.take (List.indexOf (listMin c) c) = _
  rw [List.rotate_eq_drop_append_take hidx.le]

theorem normalize_rotate (c : List Nat) (hne : c ≠ []) (hnd : c.Nodup) (k : Nat) :
    normalizeCycle (c.rotate k) = normalizeCycle c := by
  have hlenpos : 0 < c.length := List.length_pos.mpr hne
  have hlen : (c.rotate k).length = c.length := List.length_rotate c k
  have hne' : c.rotate k ≠ [] := List.length_pos.mp (by omega)
  have hmin : listMin (c.rotate k) = listMin c :=
    (listMin_perm (c.rotate k) c (List.rotate_perm c k) hne')
  have hi : List.indexOf (listMin c) c < c.length :=
    List.indexOf_lt_length.mpr (listMin_mem c hne)
  have hj : List.indexOf (listMin c) (c.rotate k) < (c.rotate k).length :=
    List.indexOf_lt_length.mpr ((List.rotate_perm c k).mem_iff.mpr (listMin_mem c hne))
  have hget1 : (c.rotate k).get ⟨List.indexOf (listMin c) (c.rotate k), hj⟩ = listMin c :=
    List.indexOf_get hj
  have hget2 : c.get ⟨List.indexOf (listMin c) c, hi⟩ = listMin c :=
    List.indexOf_get hi
  have h3 := List.get_rotate c k ⟨List.indexOf (listMin c) (c.rotate k), hj⟩
  have h5 := (h3.symm.trans hget1).trans hget2.symm
  have hinj := List.nodup_iff_injective_get.mp hnd
  have hmod : (List.indexOf (listMin c) (c.rotate k) + k) % c.length =
      List.indexOf (listMin c) c := congrArg Fin.val (hinj h5)
  rw [normalizeCycle_eq_rotate _ hne', hmin, List.rotate_rotate,
    Nat.add_comm k (List.indexOf (listMin c) (c.rotate k)), ← List.rotate_mod,
    hmod, ← normalizeCycle_eq_rotate c hne]

theorem keyLE_refl (a : Int × Int) : keyLE a a = true := by
  simp [keyLE]

theorem keyLE_trans (a b c : Int × Int) (h1 : keyLE a b = true) (h2 : keyLE b c = true) :
    keyLE a c = true := by
  simp only [keyLE, decide_eq_true_eq] at h1 h2 ⊢
  omega

theorem keyLE_total (a b : Int × Int) : (keyLE a b || keyLE b a) = true := by
  simp only [keyLE, Bool.or_eq_true, decide_eq_true_eq]
  omega

theorem sustainKey_le_imp (a b : CycleAnalysis)
    (h : keyLE (sustainKey a) (sustainKey b) = true) :
    (a.is_self_sustaining = false → b.is_self_sustaining = false) ∧
    (a.is_self_sustaining = b.is_self_sustaining → b.cycle.length ≤ a.cycle.length) := by
  simp only [keyLE, sustainKey, decide_eq_true_eq] at h
  cases ha : a.is_self_sustaining <;> cases hb : b.is_self_sustaining <;>
    rw [ha, hb] at h <;> simp at h ⊢ <;> omega

/-! ## Claim theorems -/

/-- C1: for every cycle analysis, `is_self_sustaining` is true iff no item
of `net_balance` is strictly negative and some item is strictly positive;
an empty `net_balance` (all balances zero, zeros omitted) is never
self-sustaining. -/
theorem C1_self_sustaining_iff (cycle : List Nat) (g : CraftingGraph) (mode : String) :
    ((mkCycleAnalysis cycle g mode).is_self_sustaining = true ↔
      (∀ p ∈ (mkCycleAnalysis cycle g mode).net_balance, 0 ≤ p.2) ∧
        ∃ p ∈ (mkCycleAnalysis cycle g mode).net_balance, 0 < p.2) ∧
    check_self_sustaining [] = false := by
  refine ⟨?_, rfl⟩
  rw [show (mkCycleAnalysis cycle g mode).is_self_sustaining
        = check_self_sustaining ((mkCycleAnalysis cycle g mode).net_balance) from rfl,
    check_self_sustaining, check_self_sustaining_loop_iff]
  simp

/-- C2 counterexample: on the Scenario A input the length-2 cycle
`[R1, R2]` claimed by the spec is not returned (in any rotation, under
`min_length` 1 or 2): `R1` consumes nothing, so there is no edge back into
`R1` and the only cycle is the self-loop of `R2`. -/
theorem C2_counterexample :
    [0, 1] ∉ find_all_cycles scenarioAGraph 10 1 ∧
    [1, 0] ∉ find_all_cycles scenarioAGraph 10 1 ∧
    find_all_cycles scenarioAGraph 10 2 = [] := by decide

/-- C2 (amended): on the Scenario A input, `find_all_cycles` with
`min_length = 1` returns exactly the length-1 self-loop `[R2]`, whose
analysis consumes 1 Wire, produces 3, has `net_balance {Wire: +2}` and is
self-sustaining. -/
theorem C2_amended :
    find_all_cycles scenarioAGraph 10 1 = [[1]] ∧
    (mkCycleAnalysis [1] scenarioAGraph "range").inputs_consumed = [("Wire", 1)] ∧
    (mkCycleAnalysis [1] scenarioAGraph "range").outputs_produced = [("Wire", 3)] ∧
    (mkCycleAnalysis [1] scenarioAGraph "range").net_balance = [("Wire", 2)] ∧
    (mkCycleAnalysis [1] scenarioAGraph "range").is_self_sustaining = true := by
  decide

/-- C3 counterexample: with `min_length = 2 > max_length = 1` the modelled
spec contract demands a `ConfigurationError`, but the source's
`find_all_cycles` performs no validation at all and returns normally (the
empty list) on the very same input. -/
theorem C3_counterexample :
    find_cycles_spec scenarioAGraph 2 1 = Except.error "ConfigurationError" ∧
    find_all_cycles scenarioAGraph 1 2 = [] := by
  constructor
  · rfl
  · decide

/-- C3 (amended): `find_all_cycles` validates nothing and never fails;
when `min_length > max_length` (or `max_length = 0`) it simply returns the
empty list, because every accepted cycle has length between `min_length`
and `max_length` and at least 1. -/
theorem C3_no_validation (g : CraftingGraph) (min_length max_length : Nat)
    (h : max_length < min_length ∨ max_length = 0) :
    find_all_cycles g max_length min_length = [] := by
  rw [List.eq_nil_iff_forall_not_mem]
  intro c hc
  have hb := find_all_cycles_mem g max_length min_length c hc
  rcases h with h | h <;> omega

/-- C3 witness: the concrete bad bounds `min_length = 2, max_length = 1`
on the Scenario A graph. -/
theorem C3_no_validation_witness :
    ((1 : Nat) < 2 ∨ (1 : Nat) = 0) ∧ find_all_cycles scenarioAGraph 1 2 = [] :=
  ⟨Or.inl (by decide), C3_no_validation scenarioAGraph 2 1 (Or.inl (by decide))⟩

/-- C4 counterexample: a recipe listing the consumable input "Wire" twice
is appended twice to the "Wire" consumers bucket — the index is not
deduplicated, so the claim's "at most once in each consumers bucket"
fails. -/
theorem C4_counterexample :
    (buildGraph dupInputData).recipes.length = 1 ∧
    (buildGraph dupInputData).item_to_consumers "Wire" = [0, 0] ∧
    ((buildGraph dupInputData).item_to_consumers "Wire").count 0 = 2 := by
  decide

/-- C4 (amended): after building the store from any input records, every
recipe id occurs exactly once in the producers bucket keyed by its own
output name and in no other producers bucket; in each consumers bucket it
occurs once per occurrence of a consumable input with that name — not
deduplicated when the same consumable name is listed repeatedly. -/
theorem C4_index_counts (recipes_data : RecipesData) (r : Recipe)
    (hr : r ∈ (buildGraph recipes_data).recipes) :
    (∀ k, ((buildGraph recipes_data).item_to_producers k).count r.id =
        if k = r.output.name then 1 else 0) ∧
    (∀ k, ((buildGraph recipes_data).item_to_consumers k).count r.id =
        r.inputs.countP (fun it => it.consumable && it.name == k)) := by
  have h := buildInv_foldl (flattenData recipes_data) (emptyGraph, 0) buildInv_empty
  rw [buildGraph_eq_foldl] at hr
  constructor
  · intro k
    rw [buildGraph_eq_foldl]
    exact h.producers_count r hr k
  · intro k
    rw [buildGraph_eq_foldl]
    exact h.consumers_count r hr k

/-- C4 witness: the duplicated-input store; the single recipe's id is
counted once under its output "Plate" and twice under "Wire". -/
theorem C4_index_counts_witness :
    recipe_obj 0 "Workbench" 1 dupInputRecord ∈ (buildGraph dupInputData).recipes ∧
    ((buildGraph dupInputData).item_to_producers "Plate").count 0 = 1 ∧
    ((buildGraph dupInputData).item_to_consumers "Wire").count 0 = 2 := by
  refine ⟨by decide, ?_, ?_⟩
  · exact ((C4_index_counts dupInputData (recipe_obj 0 "Workbench" 1 dupInputRecord)
      (by decide)).1 "Plate").trans (by decide)
  · exact ((C4_index_counts dupInputData (recipe_obj 0 "Workbench" 1 dupInputRecord)
      (by decide)).2 "Wire").trans (by decide)

/-- C5: every cycle returned by `find_all_cycles` — including cycles
extracted as the sub-path from the first occurrence of the revisited node
— has length between `min_length` and `max_length`. -/
theorem C5_length_bounds (g : CraftingGraph) (max_length min_length : Nat)
    (c : List Nat) (h : c ∈ find_all_cycles g max_length min_length) :
    min_length ≤ c.length ∧ c.length ≤ max_length :=
  ⟨(find_all_cycles_mem g max_length min_length c h).1,
    (find_all_cycles_mem g max_length min_length c h).2.1⟩

/-- C5 witness: the self-loop cycle of the Scenario A graph under bounds
`[1, 10]`. -/
theorem C5_length_bounds_witness :
    [1] ∈ find_all_cycles scenarioAGraph 10 1 ∧
      (1 ≤ ([1] : List Nat).length ∧ ([1] : List Nat).length ≤ 10) :=
  ⟨by decide, C5_length_bounds scenarioAGraph 10 1 [1] (by decide)⟩

/-- C6: cycle normalization is idempotent, and normalizing any rotation of
an accepted (nonempty, duplicate-free) cycle yields the same normalized
cycle. -/
theorem C6_normalization (c : List Nat) (hne : c ≠ []) (hnd : c.Nodup) :
    normalizeCycle (normalizeCycle c) = normalizeCycle c ∧
    ∀ k, normalizeCycle ((normalizeCycle c).rotate k) = normalizeCycle c := by
  constructor
  · exact (congrArg normalizeCycle (normalizeCycle_eq_rotate c hne)).trans
      (normalize_rotate c hne hnd _)
  · intro k
    rw [normalizeCycle_eq_rotate c hne, List.rotate_rotate,
      normalize_rotate c hne hnd, normalizeCycle_eq_rotate c hne]

/-- C6 witness: the concrete cycle `[2, 0, 1]` rotated by 2. -/
theorem C6_normalization_witness :
    ([2, 0, 1] : List Nat) ≠ [] ∧ ([2, 0, 1] : List Nat).Nodup ∧
    normalizeCycle (normalizeCycle [2, 0, 1]) = normalizeCycle [2, 0, 1] ∧
    normalizeCycle ((normalizeCycle [2, 0, 1]).rotate 2) = normalizeCycle [2, 0, 1] :=
  ⟨by decide, by decide,
    (C6_normalization [2, 0, 1] (by decide) (by decide)).1,
    (C6_normalization [2, 0, 1] (by decide) (by decide)).2 2⟩

/-- C7: in `range` mode the total duration sums all minimums and all
maximums (a scalar contributing its value to both), collapsing to a scalar
exactly when every recipe's duration is scalar; on Scenario D
(`{min:10,max:20}` plus scalar 30) the total is `{min:40, max:50}`. -/
theorem C7_range_mode :
    (∀ recipes : List Recipe,
        calculate_duration "range" recipes =
          if recipes.all (fun r => r.duration.isScalar) then
            DurationTotal.scalar ((sumLower recipes : Int) : ℚ)
          else DurationTotal.range (sumLower recipes) (sumUpper recipes)) ∧
    calculate_duration "range" [scenarioDRecipe1, scenarioDRecipe2] =
      DurationTotal.range 40 50 := by
  constructor
  · intro recipes
    show (let acc := recipes.foldl range_step (0, 0, false);
        if acc.2.2 then DurationTotal.range acc.1 acc.2.1
        else DurationTotal.scalar acc.1) = _
    rw [foldl_range_step]
    by_cases h : recipes.all (fun r => r.duration.isScalar)
    · have hany : recipes.any (fun r => !r.duration.isScalar) = false := by
        rw [List.any_eq_false]
        intro r hr
        have := List.all_eq_true.mp h r hr
        simp [this]
      simp [h, hany]
    · have hany : recipes.any (fun r => !r.duration.isScalar) = true := by
        rcases List.all_eq_true.not.mp h with h'
        rw [List.any_eq_true]
        by_contra hno
        push_neg at hno
        exact h' (fun r hr => by
          have := hno r hr
          revert this
          cases r.duration.isScalar <;> simp)
      simp [h, hany]
  · decide

/-- C8: with the `self_sustaining` sort key the assembled report is a
permutation of the input in which every self-sustaining analysis precedes
every non-self-sustaining one, ties are broken by descending cycle length,
and analyses with equal keys keep their relative input order (stable
sort). -/
theorem C8_sort_self_sustaining (l : List CycleAnalysis) :
    (sort_analyses l).Perm l ∧
    (sort_analyses l).Pairwise (fun a b =>
      (a.is_self_sustaining = false → b.is_self_sustaining = false) ∧
      (a.is_self_sustaining = b.is_self_sustaining → b.cycle.length ≤ a.cycle.length)) ∧
    ∀ key : Int × Int,
      (sort_analyses l).filter (fun a => decide (sustainKey a = key)) =
        l.filter (fun a => decide (sustainKey a = key)) := by
  have htrans : ∀ a b c : CycleAnalysis,
      keyLE (sustainKey a) (sustainKey b) = true →
      keyLE (sustainKey b) (sustainKey c) = true →
      keyLE (sustainKey a) (sustainKey c) = true :=
    fun a b c h1 h2 => keyLE_trans _ _ _ h1 h2
  have htotal : ∀ a b : CycleAnalysis,
      (keyLE (sustainKey a) (sustainKey b) || keyLE (sustainKey b) (sustainKey a)) = true :=
    fun a b => keyLE_total _ _
  refine ⟨List.mergeSort_perm l _, ?_, ?_⟩
  · exact (List.sorted_mergeSort htrans htotal l).imp
      (fun h => sustainKey_le_imp _ _ h)
  · intro key
    have hpair : (l.filter (fun a => decide (sustainKey a = key))).Pairwise
        (fun a b => keyLE (sustainKey a) (sustainKey b) = true) := by
      apply List.pairwise_of_forall_mem_list
      intro a ha b hb
      have hka : sustainKey a = key := of_decide_eq_true (List.mem_filter.mp ha).2
      have hkb : sustainKey b = key := of_decide_eq_true (List.mem_filter.mp hb).2
      rw [hka, hkb]
      exact keyLE_refl key
    have hsub : (l.filter (fun a => decide (sustainKey a = key))).Sublist
        (sort_analyses l) :=
      List.sublist_mergeSort htrans htotal hpair (List.filter_sublist l)
    have hsub2 := List.Sublist.filter (fun a => decide (sustainKey a = key)) hsub
    rw [List.filter_filter] at hsub2
    simp only [Bool.and_self] at hsub2
    have hperm : ((sort_analyses l).filter (fun a => decide (sustainKey a = key))).Perm
        (l.filter (fun a => decide (sustainKey a = key))) :=
      (List.mergeSort_perm l _).filter _
    exact (List.Sublist.eq_of_length hsub2 hperm.length_eq.symm).symm

/-- C9: a recipe record with no `duration` field is accepted by store
construction, the built recipe object gets the scalar duration `0`, and
appending that recipe to a cycle leaves the aggregated duration unchanged
under every duration mode string. -/
theorem C9_missing_duration (recipe_id : Nat) (station_name : String) (level : Nat)
    (rec : RecipeRecord) (hd : rec.duration = none) :
    (∀ g, (addRecipe g recipe_id station_name level rec).recipes =
        g.recipes ++ [recipe_obj recipe_id station_name level rec]) ∧
    (recipe_obj recipe_id station_name level rec).duration = Duration.scalar 0 ∧
    ∀ mode recipes,
      calculate_duration mode (recipes ++ [recipe_obj recipe_id station_name level rec]) =
        calculate_duration mode recipes := by
  have hr0 : (recipe_obj recipe_id station_name level rec).duration = Duration.scalar 0 := by
    simp [recipe_obj, hd]
  refine ⟨fun g => rfl, hr0, ?_⟩
  intro mode recipes
  unfold calculate_duration
  split_ifs
  · have : range_step (recipes.foldl range_step (0, 0, false))
        (recipe_obj recipe_id station_name level rec) =
        recipes.foldl range_step (0, 0, false) := by
      simp [range_step, hr0]
    simp only [List.foldl_append, List.foldl_cons, List.foldl_nil, this]
  · simp only [List.foldl_append, List.foldl_cons, List.foldl_nil]
    simp [avg_step, hr0]
  · simp only [List.foldl_append, List.foldl_cons, List.foldl_nil]
    simp [min_step, hr0]
  · simp only [List.foldl_append, List.foldl_cons, List.foldl_nil]
    simp [max_step, hr0]
  · rfl

/-- C9 witness: Scenario A's first record has no duration; its recipe
object gets scalar 0 and contributes nothing to an `avg`-mode total. -/
theorem C9_missing_duration_witness :
    scenarioARecord1.duration = none ∧
    (recipe_obj 0 "Workbench" 1 scenarioARecord1).duration = Duration.scalar 0 ∧
    calculate_duration "avg"
        ([scenarioDRecipe1] ++ [recipe_obj 0 "Workbench" 1 scenarioARecord1]) =
      calculate_duration "avg" [scenarioDRecipe1] :=
  ⟨rfl, (C9_missing_duration 0 "Workbench" 1 scenarioARecord1 rfl).2.1,
    (C9_missing_duration 0 "Workbench" 1 scenarioARecord1 rfl).2.2 "avg" [scenarioDRecipe1]⟩

/-- C10: for any duration mode outside min/max/avg/range, the analysis
still goes through: the total duration is 0 and consumption, production,
net balance and the self-sustaining flag are computed as usual. -/
theorem C10_unknown_mode (mode : String) (h1 : mode ≠ "range") (h2 : mode ≠ "avg")
    (h3 : mode ≠ "min") (h4 : mode ≠ "max") (cycle : List Nat) (g : CraftingGraph) :
    (mkCycleAnalysis cycle g mode).total_duration = DurationTotal.scalar 0 ∧
    (mkCycleAnalysis cycle g mode).inputs_consumed =
      calculate_inputs (cycle.map g.recipe_id_map) ∧
    (mkCycleAnalysis cycle g mode).outputs_produced =
      calculate_outputs (cycle.map g.recipe_id_map) ∧
    (mkCycleAnalysis cycle g mode).net_balance =
      calculate_balance (calculate_inputs (cycle.map g.recipe_id_map))
        (calculate_outputs (cycle.map g.recipe_id_map)) ∧
    (mkCycleAnalysis cycle g mode).is_self_sustaining =
      check_self_sustaining ((mkCycleAnalysis cycle g mode).net_balance) := by
  refine ⟨?_, rfl, rfl, rfl, rfl⟩
  show calculate_duration mode _ = DurationTotal.scalar 0
  unfold calculate_duration
  rw [if_neg h1, if_neg h2, if_neg h3, if_neg h4]

/-- C10 witness: the unknown mode string "total" on the Scenario A
self-loop. -/
theorem C10_unknown_mode_witness :
    (mkCycleAnalysis [1] scenarioAGraph "total").total_duration = DurationTotal.scalar 0 ∧
    (mkCycleAnalysis [1] scenarioAGraph "total").is_self_sustaining = true :=
  ⟨(C10_unknown_mode "total" (by decide) (by decide) (by decide) (by decide)
      [1] scenarioAGraph).1, by decide⟩

end TarkovCrafts
